import Mathlib

/-!
# TransformationAddLocalVariable (source/fuzz/transformation_add_local_variable.cpp)

A shallow embedding of the add-local-variable fuzzer transformation: its
applicability test, its application to a module and a fact manager, and its
serialisation as a protobuf record.  The intermediate representation
(`opt::Instruction`, `opt::BasicBlock`, `opt::Function`, `opt::Module`,
`opt::IRContext`), the helpers of `fuzzerutil` and the fact manager are
declared outside this source file; they are modelled from the specification
and marked as such.

Conventions: an identifier is an unsigned integer, held in a `Nat`.  A
pointer into an owned sequence is the index of the element.  A lookup that
the C++ code performs without a check (an operand read, a dereference of
`begin()`) yields `none` when it has nothing to read.
-/

namespace spvtools

/-- An opcode of the SPIR-V instruction set, by its number. -/
abbrev SpvOp := Nat

/-- Opcode `OpTypePointer` of the SPIR-V headers. -/
def SpvOpTypePointer : SpvOp := 32

/-- Opcode `OpVariable` of the SPIR-V headers. -/
def SpvOpVariable : SpvOp := 59

/-- Storage class `Function` of the SPIR-V headers. -/
def SpvStorageClassFunction : Nat := 7

/-- Modelled from the spec: the kinds of operand ("each operand typed as
identifier-reference, literal, or enumerated kind"); the enumeration itself
is declared outside this source file. -/
inductive spv_operand_type_t where
  | SPV_OPERAND_TYPE_ID
  | SPV_OPERAND_TYPE_LITERAL_INTEGER
  | SPV_OPERAND_TYPE_STORAGE_CLASS
  deriving DecidableEq, Repr

/-- Modelled from the spec: `spvOpcodeIsConstant` is defined outside this
source file; it holds of the opcodes that denote a compile-time constant
(`OpConstantTrue` .. `OpConstantNull`, `OpSpecConstantTrue` ..
`OpSpecConstantOp`). -/
def spvOpcodeIsConstant (opcode : SpvOp) : Bool :=
  decide (opcode ∈ [41, 42, 43, 44, 45, 46, 48, 49, 50, 51, 52])

namespace opt

/-- Modelled from the spec: an operand is a kind together with its words, as
in the operand list built by `Apply`. -/
structure Operand where
  type : spv_operand_type_t
  words : List Nat
  deriving DecidableEq, Repr

/-- Modelled from the spec: "Instruction: opcode, optional result identifier,
optional result-type identifier, ordered operand list".  The operand list
holds the operands after the result type and the result identifier. -/
structure Instruction where
  opcode : SpvOp
  type_id : Option Nat
  result_id : Option Nat
  in_operands : List Operand
  deriving DecidableEq, Repr

/-- Modelled from the spec: the single word of the operand at `index`.  The
read has nothing to return when there is no such operand or when the operand
does not consist of exactly one word. -/
def Instruction.GetSingleWordInOperand (inst : Instruction) (index : Nat) : Option Nat :=
  match inst.in_operands[index]? with
  | some operand =>
    match operand.words with
    | [word] => some word
    | _ => none
  | none => none

/-- Modelled from the spec: a basic block is its label followed by an ordered
sequence of instructions; `begin()` is position 0 of that sequence. -/
structure BasicBlock where
  label : Instruction
  insts : List Instruction
  deriving DecidableEq, Repr

/-- Modelled from the spec: "Function: ordered sequence of Basic Blocks; the
first block's first position is the canonical insertion point for
function-scoped local declarations", together with the instruction that
defines the function and those that define its parameters. -/
structure Function where
  def_inst : Instruction
  params : List Instruction
  blocks : List BasicBlock
  deriving DecidableEq, Repr

/-- Modelled from the spec: the identifier of a function is the result
identifier of its defining instruction. -/
def Function.result_id (function : Function) : Option Nat :=
  function.def_inst.result_id

/-- Modelled from the spec: "Module: ordered collection of Functions, Types,
Global Declarations", with the identifier bound of the module header. -/
structure Module where
  id_bound : Nat
  types_values : List Instruction
  functions : List Function
  deriving DecidableEq, Repr

/-- The instructions of a basic block, label first. -/
def BasicBlock.instructions (block : BasicBlock) : List Instruction :=
  block.label :: block.insts

/-- The instructions of a function in program order. -/
def Function.instructions (function : Function) : List Instruction :=
  function.def_inst :: (function.params ++ function.blocks.flatMap BasicBlock.instructions)

/-- The instructions a module owns, in program order. -/
def Module.instructions (module : Module) : List Instruction :=
  module.types_values ++ module.functions.flatMap Function.instructions

/-- Modelled from the spec: the kinds of cached analysis ("def-use,
dominance, etc."), by number. -/
abbrev Analysis := Nat

/-- Modelled from the spec: "Module Context: owns the mutable IR plus a set
of lazily computed, cacheable analyses"; `valid_analyses` lists the analyses
whose cached result is marked valid. -/
structure IRContext where
  module : Module
  valid_analyses : List Analysis
  deriving DecidableEq, Repr

/-- The empty set of analyses, `IRContext::kAnalysisNone`. -/
def IRContext.kAnalysisNone : List Analysis := []

/-- Modelled from the spec: the definition lookup of the def-use analysis,
computed from the current module: the instruction whose result identifier is
`id`, the one latest in program order if the module has several. -/
def IRContext.GetDef (context : IRContext) (id : Nat) : Option Instruction :=
  context.module.instructions.reverse.find? (fun inst => inst.result_id == some id)

/-- Modelled from the spec: "invalidate analyses except set S": of the valid
analyses only those in `preserved` stay valid. -/
def IRContext.InvalidateAnalysesExceptFor (context : IRContext) (preserved : List Analysis) :
    IRContext :=
  { context with valid_analyses := context.valid_analyses.filter (fun a => decide (a ∈ preserved)) }

end opt

namespace fuzz

/-- Modelled from the spec: the shapes of fact of the fact database ("one per
fact shape (e.g., arbitrary value, identifiers are synonymous ...)"). -/
inductive Fact where
  | ValueOfVariableIsArbitrary (variable_id : Nat)
  | IdsAreSynonymous (id1 id2 : Nat)
  deriving DecidableEq, Repr

/-- Modelled from the spec: the fact database, an append-only store of
facts. -/
structure FactManager where
  facts : List Fact
  deriving DecidableEq, Repr

/-- Modelled from the spec: the assertion operation for the "arbitrary value"
fact shape; it appends the fact and retracts nothing. -/
def FactManager.AddFactValueOfVariableIsArbitrary (fact_manager : FactManager)
    (variable_id : Nat) : FactManager :=
  { fact_manager with facts := fact_manager.facts ++ [Fact.ValueOfVariableIsArbitrary variable_id] }

/-- Modelled from the spec: the query "is the value of this variable
arbitrary". -/
def FactManager.VariableValueIsArbitrary (fact_manager : FactManager) (variable_id : Nat) : Bool :=
  fact_manager.facts.contains (Fact.ValueOfVariableIsArbitrary variable_id)

namespace fuzzerutil

/-- Modelled from the spec: `IsFresh(candidate)`: no instruction of the
module defines the candidate.  Transformations are applied one at a time, so
besides the definitions of the module no identifier is reserved in flight. -/
def IsFreshId (context : opt.IRContext) (id : Nat) : Bool :=
  (context.GetDef id).isNone

/-- Modelled from the spec: `AdvanceBound(identifier)` "raises the bound to
one past the given identifier if not already higher". -/
def UpdateModuleIdBound (context : opt.IRContext) (id : Nat) : opt.IRContext :=
  { context with
    module := { context.module with id_bound := max context.module.id_bound (id + 1) } }

/-- Modelled from the spec: the function of the module whose identifier is
`function_id`, as its position in the module, the first one in module order;
`none` is the null pointer. -/
def FindFunction (context : opt.IRContext) (function_id : Nat) : Option Nat :=
  context.module.functions.findIdx? (fun function => function.result_id == some function_id)

end fuzzerutil

namespace protobufs

/-- The protobuf message `TransformationAddLocalVariable`: the five
arguments of the transformation. -/
structure TransformationAddLocalVariable where
  fresh_id : Nat
  type_id : Nat
  function_id : Nat
  initializer_id : Nat
  value_is_arbitrary : Bool
  deriving DecidableEq, Repr

/-- Modelled from the spec: the protobuf message `Transformation`, "a tagged
union over all transformation kinds"; the kinds other than this one are kept
as a kind number with scalar arguments. -/
inductive Transformation where
  | transformation_not_set
  | add_local_variable (message : TransformationAddLocalVariable)
  | other_kind (kind : Nat) (arguments : List Nat)
  deriving DecidableEq, Repr

end protobufs

/-- The class `TransformationAddLocalVariable`: it holds its message. -/
structure TransformationAddLocalVariable where
  message_ : protobufs.TransformationAddLocalVariable
  deriving DecidableEq, Repr

/-- Constructor from a message (lines 22-24). -/
def TransformationAddLocalVariable.ofMessage
    (message : protobufs.TransformationAddLocalVariable) : TransformationAddLocalVariable :=
  { message_ := message }

/-- Constructor from the five arguments (lines 26-34): each setter stores its
argument in the field of the same name. -/
def TransformationAddLocalVariable.ofArguments (fresh_id type_id function_id initializer_id : Nat)
    (value_is_arbitrary : Bool) : TransformationAddLocalVariable :=
  { message_ :=
      { fresh_id := fresh_id
        type_id := type_id
        function_id := function_id
        initializer_id := initializer_id
        value_is_arbitrary := value_is_arbitrary } }

/-- `TransformationAddLocalVariable::IsApplicable` (lines 36-69).  The fact
manager is unused.  The result is `none` when an operand read on the type
instruction has nothing to read. -/
def TransformationAddLocalVariable.IsApplicable (t : TransformationAddLocalVariable)
    (context : opt.IRContext) (_fact_manager : FactManager) : Option Bool :=
  -- The provided id must be fresh.
  if !fuzzerutil.IsFreshId context t.message_.fresh_id then some false
  else
    -- The pointer type id must correspond to a pointer with function storage class.
    match context.GetDef t.message_.type_id with
    | none => some false
    | some type_instruction =>
      if type_instruction.opcode ≠ SpvOpTypePointer then some false
      else
        match type_instruction.GetSingleWordInOperand 0 with
        | none => none
        | some storage_class =>
          if storage_class ≠ SpvStorageClassFunction then some false
          else
            -- The initializer must exist, ...
            match context.GetDef t.message_.initializer_id with
            | none => some false
            | some initializer_instruction =>
              -- ... be a constant, ...
              if !spvOpcodeIsConstant initializer_instruction.opcode then some false
              else
                -- ... and have the same type as the pointee type.
                match type_instruction.GetSingleWordInOperand 1 with
                | none => none
                | some pointee_type_id =>
                  if initializer_instruction.type_id ≠ some pointee_type_id then some false
                  else
                    -- The function must exist.
                    some (fuzzerutil.FindFunction context t.message_.function_id).isSome

/-- The instruction that `Apply` builds (lines 77-84): an `OpVariable` with
the given result type and result id and the operands storage class
`Function` and the initializer. -/
def TransformationAddLocalVariable.newInstruction (t : TransformationAddLocalVariable) :
    opt.Instruction :=
  { opcode := SpvOpVariable
    type_id := some t.message_.type_id
    result_id := some t.message_.fresh_id
    in_operands :=
      [ { type := spv_operand_type_t.SPV_OPERAND_TYPE_STORAGE_CLASS
          words := [SpvStorageClassFunction] },
        { type := spv_operand_type_t.SPV_OPERAND_TYPE_ID
          words := [t.message_.initializer_id] } ] }

/-- `TransformationAddLocalVariable::Apply` (lines 71-89).  The result is
`none` when `FindFunction` returns the null pointer or when the function has
no block for `begin()` to point at; otherwise it is the context and the fact
manager as `Apply` leaves them. -/
def TransformationAddLocalVariable.Apply (t : TransformationAddLocalVariable)
    (context : opt.IRContext) (fact_manager : FactManager) :
    Option (opt.IRContext × FactManager) :=
  let context1 := fuzzerutil.UpdateModuleIdBound context t.message_.fresh_id
  match fuzzerutil.FindFunction context1 t.message_.function_id with
  | none => none
  | some function_index =>
    match context1.module.functions[function_index]? with
    | none => none
    | some function =>
      match function.blocks with
      | [] => none
      | entry_block :: other_blocks =>
        let entry_block1 : opt.BasicBlock :=
          { entry_block with insts := t.newInstruction :: entry_block.insts }
        let function1 : opt.Function := { function with blocks := entry_block1 :: other_blocks }
        let context2 : opt.IRContext :=
          { context1 with
            module :=
              { context1.module with
                functions := context1.module.functions.set function_index function1 } }
        let fact_manager1 :=
          if t.message_.value_is_arbitrary then
            fact_manager.AddFactValueOfVariableIsArbitrary t.message_.fresh_id
          else fact_manager
        some (context2.InvalidateAnalysesExceptFor opt.IRContext.kAnalysisNone, fact_manager1)

/-- `TransformationAddLocalVariable::ToMessage` (lines 91-95). -/
def TransformationAddLocalVariable.ToMessage (t : TransformationAddLocalVariable) :
    protobufs.Transformation :=
  protobufs.Transformation.add_local_variable t.message_

/-! ## The example module of the specification -/

/-- An instruction with a result identifier and a result type. -/
def exampleInst (opcode : SpvOp) (type_id result_id : Option Nat) (words : List Nat) :
    opt.Instruction :=
  { opcode := opcode
    type_id := type_id
    result_id := result_id
    in_operands := words.map
      (fun w => { type := spv_operand_type_t.SPV_OPERAND_TYPE_LITERAL_INTEGER, words := [w] }) }

/-- Function 8 of the example: `%8 = OpFunction %2 None %3`, one block
`%1 = OpLabel` holding `OpReturn`. -/
def exampleFunction : opt.Function :=
  { def_inst := exampleInst 54 (some 2) (some 8) [0, 3]
    params := []
    blocks := [ { label := exampleInst 248 none (some 1) [], insts := [exampleInst 253 none none []] } ] }

/-- The example module: bound 10; `%2` void, `%3` the function type, `%6` a
32-bit integer type, `%5` the pointer type with storage class `Function` and
pointee `%6`, `%7` a constant of type `%6`, `%9` a 32-bit float type, `%4` a
constant of type `%9`, and function `%8`. -/
def exampleModule : opt.Module :=
  { id_bound := 10
    types_values :=
      [ exampleInst 19 none (some 2) [],
        exampleInst 33 none (some 3) [2],
        exampleInst 21 none (some 6) [32, 0],
        exampleInst SpvOpTypePointer none (some 5) [SpvStorageClassFunction, 6],
        exampleInst 43 (some 6) (some 7) [1],
        exampleInst 22 none (some 9) [32],
        exampleInst 43 (some 9) (some 4) [0] ]
    functions := [exampleFunction] }

/-- The example context: the example module with a valid def-use analysis
(analysis number 1). -/
def exampleContext : opt.IRContext :=
  { module := exampleModule, valid_analyses := [1] }

/-- The example fact manager: one fact about other identifiers. -/
def exampleFacts : FactManager :=
  { facts := [Fact.IdsAreSynonymous 7 7] }

/-- The transformation of the example scenario. -/
def exampleTransformation : TransformationAddLocalVariable :=
  TransformationAddLocalVariable.ofArguments 10 5 8 7 true

/-- The example module with function 8 declared without a body: the function
has no basic block. -/
def bodilessContext : opt.IRContext :=
  { exampleContext with
    module := { exampleModule with functions := [ { exampleFunction with blocks := [] } ] } }

/-- A finite sequence of `Apply` calls, each on the context and fact manager
the previous call left: the states after each call, up to the first call that
produces no result. -/
def ApplySequence :
    List TransformationAddLocalVariable → opt.IRContext → FactManager →
      List (opt.IRContext × FactManager)
  | [], _, _ => []
  | t :: ts, context, fact_manager =>
    match t.Apply context fact_manager with
    | none => []
    | some (context1, fact_manager1) =>
      (context1, fact_manager1) :: ApplySequence ts context1 fact_manager1

/-- The accessor of the `add_local_variable` payload of a record: the payload
when the record is of that kind. -/
def protobufs.Transformation.add_local_variable_payload :
    protobufs.Transformation → Option protobufs.TransformationAddLocalVariable
  | protobufs.Transformation.add_local_variable message => some message
  | _ => none

end fuzz
end spvtools

/-! ## Lemmas on the lookups -/

namespace spvtools
namespace fuzz

open opt

/-- Overwriting the element found by `findIdx?` with one that also satisfies
the test leaves the index found unchanged. -/
theorem findIdx?_set_of_sat {α : Type} (p : α → Bool) (a : α) (ha : p a = true) :
    ∀ (l : List α) (i : Nat), l.findIdx? p = some i → (l.set i a).findIdx? p = some i := by
  intro l
  induction l with
  | nil => intro i h; simp at h
  | cons x xs ih =>
    intro i h
    rw [List.findIdx?_cons] at h
    by_cases hx : p x = true
    · simp only [hx, if_true, Option.some.injEq] at h
      subst h
      simp [List.set, ha]
    · simp only [hx, Bool.false_eq_true, if_false, List.findIdx?_succ, Option.map_eq_some'] at h
      obtain ⟨k, hk, rfl⟩ := h
      simp only [List.set, List.findIdx?_cons, hx, Bool.false_eq_true, if_false,
        List.findIdx?_succ, Option.map_eq_some']
      exact ⟨k, ih k hk, rfl⟩

/-- The index found by `findIdx?` holds an element that satisfies the test. -/
theorem findIdx?_some_getElem? {α : Type} (p : α → Bool) :
    ∀ (l : List α) (i : Nat), l.findIdx? p = some i → ∃ a, l[i]? = some a ∧ p a = true := by
  intro l i h
  have h2 := List.findIdx?_of_eq_some h
  cases hget : l[i]? with
  | none => simp [hget] at h2
  | some a => exact ⟨a, rfl, by simpa [hget] using h2⟩

/-- The definition lookup finds nothing exactly when no instruction of the
module has the identifier as its result. -/
theorem GetDef_eq_none_iff (context : IRContext) (id : Nat) :
    context.GetDef id = none ↔ ∀ inst ∈ context.module.instructions, inst.result_id ≠ some id := by
  simp [IRContext.GetDef]

/-- The definition lookup returns an instruction of the module with the
identifier as its result. -/
theorem GetDef_some_mem (context : IRContext) (id : Nat) (inst : Instruction)
    (h : context.GetDef id = some inst) :
    inst ∈ context.module.instructions ∧ inst.result_id = some id := by
  unfold IRContext.GetDef at h
  have h1 := List.mem_of_find?_eq_some h
  have h2 := List.find?_some h
  exact ⟨by simpa using h1, by simpa using h2⟩

/-- An identifier is fresh exactly when no instruction of the module defines
it. -/
theorem IsFreshId_eq_true_iff (context : IRContext) (id : Nat) :
    fuzzerutil.IsFreshId context id = true ↔
      ∀ inst ∈ context.module.instructions, inst.result_id ≠ some id := by
  rw [← GetDef_eq_none_iff]
  unfold fuzzerutil.IsFreshId
  cases context.GetDef id <;> simp

/-- `FindFunction` finds a function exactly when the module has one with the
identifier. -/
theorem FindFunction_isSome_iff (context : IRContext) (function_id : Nat) :
    (fuzzerutil.FindFunction context function_id).isSome = true ↔
      ∃ function ∈ context.module.functions, function.result_id = some function_id := by
  unfold fuzzerutil.FindFunction
  rw [List.findIdx?_isSome]
  simp

/-- The result of `Apply`, field by field: the function found, its entry
block, and the new bound, functions, analyses and fact manager. -/
theorem Apply_eq_some (t : TransformationAddLocalVariable) (context context1 : IRContext)
    (fact_manager fact_manager1 : FactManager)
    (h : t.Apply context fact_manager = some (context1, fact_manager1)) :
    ∃ function_index function entry_block other_blocks,
      fuzzerutil.FindFunction context t.message_.function_id = some function_index ∧
      context.module.functions[function_index]? = some function ∧
      function.blocks = entry_block :: other_blocks ∧
      context1.module.id_bound
        = max context.module.id_bound (t.message_.fresh_id + 1) ∧
      context1.module.types_values = context.module.types_values ∧
      context1.module.functions
        = context.module.functions.set function_index
            { function with
              blocks :=
                { entry_block with insts := t.newInstruction :: entry_block.insts }
                  :: other_blocks } ∧
      context1.valid_analyses = [] ∧
      fact_manager1
        = (if t.message_.value_is_arbitrary then
            fact_manager.AddFactValueOfVariableIsArbitrary t.message_.fresh_id
          else fact_manager) := by
  unfold TransformationAddLocalVariable.Apply at h
  simp only [fuzzerutil.FindFunction, fuzzerutil.UpdateModuleIdBound] at h
  unfold fuzzerutil.FindFunction
  split at h
  · exact absurd h (by simp)
  · rename_i function_index hfind
    split at h
    · exact absurd h (by simp)
    · rename_i function hget
      split at h
      · exact absurd h (by simp)
      · rename_i entry_block other_blocks hblocks
        simp only [Option.some.injEq, Prod.mk.injEq] at h
        obtain ⟨hc, hf⟩ := h
        refine ⟨function_index, function, entry_block, other_blocks, hfind, hget, hblocks, ?_⟩
        subst hc
        subst hf
        simp [IRContext.InvalidateAnalysesExceptFor, IRContext.kAnalysisNone]

/-- `Apply` produces its result when the function found has an entry block. -/
theorem Apply_isSome_of_entry_block (t : TransformationAddLocalVariable) (context : IRContext)
    (fact_manager : FactManager) (function_index : Nat) (function : Function)
    (entry_block : BasicBlock) (other_blocks : List BasicBlock)
    (hfind : fuzzerutil.FindFunction context t.message_.function_id = some function_index)
    (hget : context.module.functions[function_index]? = some function)
    (hblocks : function.blocks = entry_block :: other_blocks) :
    (t.Apply context fact_manager).isSome = true := by
  unfold fuzzerutil.FindFunction at hfind
  unfold TransformationAddLocalVariable.Apply
  simp only [fuzzerutil.FindFunction, fuzzerutil.UpdateModuleIdBound, hfind, hget, hblocks]
  rfl

/-- The instruction built by `Apply` is an instruction of the resulting
module. -/
theorem newInstruction_mem_of_Apply (t : TransformationAddLocalVariable)
    (context context1 : IRContext) (fact_manager fact_manager1 : FactManager)
    (h : t.Apply context fact_manager = some (context1, fact_manager1)) :
    t.newInstruction ∈ context1.module.instructions := by
  obtain ⟨i, function, entry_block, other_blocks, hfind, hget, _, _, _, hfuns, _, _⟩ :=
    Apply_eq_some t context context1 fact_manager fact_manager1 h
  have hlt : i < context.module.functions.length := by
    rcases List.getElem?_eq_some.mp hget with ⟨hlt, _⟩
    exact hlt
  unfold Module.instructions
  rw [hfuns]
  apply List.mem_append_right
  rw [List.mem_flatMap]
  refine ⟨_, List.mem_set _ i hlt _, ?_⟩
  simp [Function.instructions, BasicBlock.instructions]

/-- A true applicability test has found a function with id `function_id`. -/
theorem FindFunction_isSome_of_IsApplicable (t : TransformationAddLocalVariable)
    (context : IRContext) (fact_manager : FactManager)
    (h : t.IsApplicable context fact_manager = some true) :
    (fuzzerutil.FindFunction context t.message_.function_id).isSome = true := by
  unfold TransformationAddLocalVariable.IsApplicable at h
  repeat' split at h
  all_goals simp_all

/-- After a true applicability test `Apply` produces its result as soon as
the functions with id `function_id` have a block. -/
theorem Apply_isSome_of_IsApplicable (t : TransformationAddLocalVariable)
    (context : IRContext) (fact_manager : FactManager)
    (happ : t.IsApplicable context fact_manager = some true)
    (hblocks : ∀ function ∈ context.module.functions,
      function.result_id = some t.message_.function_id → function.blocks ≠ []) :
    (t.Apply context fact_manager).isSome = true := by
  have hsome := FindFunction_isSome_of_IsApplicable t context fact_manager happ
  obtain ⟨i, hfind⟩ := Option.isSome_iff_exists.mp hsome
  obtain ⟨function, hget, hp⟩ := findIdx?_some_getElem? _ _ _ hfind
  have hid : function.result_id = some t.message_.function_id := by simpa using hp
  have hne := hblocks function (List.getElem?_mem hget) hid
  cases hb : function.blocks with
  | nil => exact absurd hb hne
  | cons entry_block other_blocks =>
    exact Apply_isSome_of_entry_block t context fact_manager i function entry_block other_blocks
      hfind hget hb

/-! ## The applicability test -/

/-- C1: `IsApplicable` returns true exactly when the five conditions hold:
(1) no instruction of the module defines `fresh_id`; (2) `type_id` is defined
by an `OpTypePointer` instruction whose storage class operand is `Function`;
(3) `initializer_id` is defined by an instruction with a constant opcode;
(4) the result type of that instruction is the pointee type operand of the
pointer type; (5) the module has a function with id `function_id`.  The
example module (bound 10, pointer type 5 with pointee 6, constant 7 of type
6, function 8) with arguments (10, 5, 8, 7, true) is applicable. -/
theorem IsApplicable_eq_true_iff :
    (∀ (t : TransformationAddLocalVariable) (context : IRContext) (fact_manager : FactManager),
      t.IsApplicable context fact_manager = some true ↔
        (∀ inst ∈ context.module.instructions, inst.result_id ≠ some t.message_.fresh_id) ∧
        (∃ type_instruction initializer_instruction pointee_type_id,
          context.GetDef t.message_.type_id = some type_instruction ∧
          type_instruction.opcode = SpvOpTypePointer ∧
          type_instruction.GetSingleWordInOperand 0 = some SpvStorageClassFunction ∧
          context.GetDef t.message_.initializer_id = some initializer_instruction ∧
          spvOpcodeIsConstant initializer_instruction.opcode = true ∧
          type_instruction.GetSingleWordInOperand 1 = some pointee_type_id ∧
          initializer_instruction.type_id = some pointee_type_id) ∧
        (∃ function ∈ context.module.functions,
          function.result_id = some t.message_.function_id)) ∧
    (TransformationAddLocalVariable.ofArguments 10 5 8 7 true).IsApplicable
      exampleContext exampleFacts = some true := by
  refine ⟨?_, by decide⟩
  intro t context fact_manager
  rw [← IsFreshId_eq_true_iff, ← FindFunction_isSome_iff]
  unfold TransformationAddLocalVariable.IsApplicable
  constructor
  · intro h
    split at h
    · simp at h
    · rename_i hfresh
      split at h
      · simp at h
      · rename_i type_instruction hty
        split at h
        · simp at h
        · rename_i hop
          split at h
          · simp at h
          · rename_i storage_class hsc
            split at h
            · simp at h
            · rename_i hscf
              split at h
              · simp at h
              · rename_i initializer_instruction hini
                split at h
                · simp at h
                · rename_i hconst
                  split at h
                  · simp at h
                  · rename_i pointee_type_id hpointee
                    split at h
                    · simp at h
                    · rename_i htype
                      refine ⟨by simpa using hfresh, ⟨type_instruction, initializer_instruction,
                        pointee_type_id, hty, by simpa using hop, ?_, hini, by simpa using hconst,
                        hpointee, by simpa using htype⟩, by simpa using h⟩
                      rw [hsc]
                      simpa using hscf
  · rintro ⟨hfresh, ⟨type_instruction, initializer_instruction, pointee_type_id, hty, hop, hsc,
      hini, hconst, hpointee, htype⟩, hfun⟩
    simp [hfresh, hty, hop, hsc, hini, hconst, hpointee, htype, hfun]

/-- C4: when some instruction of the module already defines `fresh_id`,
`IsApplicable` returns false, whatever the other arguments are. -/
theorem IsApplicable_false_of_fresh_id_defined (t : TransformationAddLocalVariable)
    (context : IRContext) (fact_manager : FactManager)
    (h : ∃ inst ∈ context.module.instructions, inst.result_id = some t.message_.fresh_id) :
    t.IsApplicable context fact_manager = some false := by
  have hfresh : fuzzerutil.IsFreshId context t.message_.fresh_id = false := by
    rw [← Bool.not_eq_true, IsFreshId_eq_true_iff]
    obtain ⟨inst, hmem, hid⟩ := h
    exact fun hall => hall inst hmem hid
  unfold TransformationAddLocalVariable.IsApplicable
  simp [hfresh]

/-- Witness of C4: in the example module id 7 is the existing constant, and
with `fresh_id = 7` and the other arguments valid the transformation is not
applicable. -/
theorem IsApplicable_false_of_fresh_id_defined_witness :
    (exampleInst 43 (some 6) (some 7) [1] ∈ exampleContext.module.instructions) ∧
    (TransformationAddLocalVariable.ofArguments 7 5 8 7 true).IsApplicable
      exampleContext exampleFacts = some false :=
  ⟨by decide,
   IsApplicable_false_of_fresh_id_defined (TransformationAddLocalVariable.ofArguments 7 5 8 7 true)
    exampleContext exampleFacts ⟨exampleInst 43 (some 6) (some 7) [1], by decide, by decide⟩⟩

/-- C5: when `type_id` is defined by a pointer type with its storage class
and pointee operands, and the instruction defining `initializer_id` has a
result type other than that pointee type, `IsApplicable` returns false. -/
theorem IsApplicable_false_of_type_mismatch (t : TransformationAddLocalVariable)
    (context : IRContext) (fact_manager : FactManager)
    (type_instruction initializer_instruction : Instruction)
    (storage_class pointee_type_id : Nat)
    (hty : context.GetDef t.message_.type_id = some type_instruction)
    (hop : type_instruction.opcode = SpvOpTypePointer)
    (hsc : type_instruction.GetSingleWordInOperand 0 = some storage_class)
    (hpointee : type_instruction.GetSingleWordInOperand 1 = some pointee_type_id)
    (hini : context.GetDef t.message_.initializer_id = some initializer_instruction)
    (hne : initializer_instruction.type_id ≠ some pointee_type_id) :
    t.IsApplicable context fact_manager = some false := by
  unfold TransformationAddLocalVariable.IsApplicable
  simp only [hty, hop, hsc, hpointee, hini]
  split
  · rfl
  · simp only [ne_eq, not_true_eq_false, if_false]
    split
    · rfl
    · split
      · rfl
      · simp [hne]

/-- Witness of C5: in the example module constant 4 has type 9 while the
pointee type of pointer type 5 is 6; with `initializer_id = 4` and the other
arguments valid the transformation is not applicable. -/
theorem IsApplicable_false_of_type_mismatch_witness :
    (TransformationAddLocalVariable.ofArguments 10 5 8 4 true).IsApplicable
      exampleContext exampleFacts = some false :=
  IsApplicable_false_of_type_mismatch (TransformationAddLocalVariable.ofArguments 10 5 8 4 true)
    exampleContext exampleFacts
    (exampleInst SpvOpTypePointer none (some 5) [SpvStorageClassFunction, 6])
    (exampleInst 43 (some 9) (some 4) [0]) SpvStorageClassFunction 6
    (by decide) (by decide) (by decide) (by decide) (by decide) (by decide)

/-! ## The application -/

/-- C2: on the example module with function 8 declared without a body,
`IsApplicable` returns true for the arguments (10, 5, 8, 7, true), the
function is found, and `Apply` has no first block to insert into: it does
not produce a result. -/
theorem Apply_fails_on_function_without_blocks :
    (TransformationAddLocalVariable.ofArguments 10 5 8 7 true).IsApplicable
      bodilessContext exampleFacts = some true ∧
    fuzzerutil.FindFunction bodilessContext 8 = some 0 ∧
    (bodilessContext.module.functions[0]?).map Function.blocks = some [] ∧
    (TransformationAddLocalVariable.ofArguments 10 5 8 7 true).Apply
      bodilessContext exampleFacts = none := by
  decide

/-- C3: when `IsApplicable` is true, in the result of `Apply` the function
with id `function_id` has an entry block whose first instruction is an
`OpVariable` with result type `type_id`, result id `fresh_id` and operand
list exactly [storage class `Function`, id `initializer_id`]; and `Apply`
does produce that result when the functions with id `function_id` have a
block. -/
theorem Apply_inserts_variable_first (t : TransformationAddLocalVariable)
    (context : IRContext) (fact_manager : FactManager)
    (happ : t.IsApplicable context fact_manager = some true) :
    (∀ context1 fact_manager1,
      t.Apply context fact_manager = some (context1, fact_manager1) →
      ∃ function_index function entry_block other_blocks first rest,
        fuzzerutil.FindFunction context1 t.message_.function_id = some function_index ∧
        context1.module.functions[function_index]? = some function ∧
        function.blocks = entry_block :: other_blocks ∧
        entry_block.insts = first :: rest ∧
        first.opcode = SpvOpVariable ∧
        first.type_id = some t.message_.type_id ∧
        first.result_id = some t.message_.fresh_id ∧
        first.in_operands =
          [ { type := spv_operand_type_t.SPV_OPERAND_TYPE_STORAGE_CLASS,
              words := [SpvStorageClassFunction] },
            { type := spv_operand_type_t.SPV_OPERAND_TYPE_ID,
              words := [t.message_.initializer_id] } ]) ∧
    ((∀ function ∈ context.module.functions,
        function.result_id = some t.message_.function_id → function.blocks ≠ []) →
      (t.Apply context fact_manager).isSome = true) := by
  refine ⟨?_, Apply_isSome_of_IsApplicable t context fact_manager happ⟩
  intro context1 fact_manager1 hres
  obtain ⟨i, function, entry_block, other_blocks, hfind, hget, _, _, _, hfuns, _, _⟩ :=
    Apply_eq_some t context context1 fact_manager fact_manager1 hres
  have hlt : i < context.module.functions.length := by
    rcases List.getElem?_eq_some.mp hget with ⟨hlt, _⟩
    exact hlt
  obtain ⟨g, hg, hpg⟩ := findIdx?_some_getElem? _ _ _ hfind
  have hgf : g = function := by
    rw [hget] at hg
    exact (Option.some.inj hg).symm
  subst hgf
  refine ⟨i,
    { g with
      blocks := { entry_block with insts := t.newInstruction :: entry_block.insts } :: other_blocks },
    { entry_block with insts := t.newInstruction :: entry_block.insts },
    other_blocks, t.newInstruction, entry_block.insts, ?_, ?_, rfl, rfl, rfl, rfl, rfl, rfl⟩
  · unfold fuzzerutil.FindFunction
    rw [hfuns]
    exact findIdx?_set_of_sat
      (fun function : Function => function.result_id == some t.message_.function_id)
      { g with
        blocks :=
          { entry_block with insts := t.newInstruction :: entry_block.insts } :: other_blocks }
      hpg _ _ hfind
  · rw [hfuns]
    exact List.getElem?_set_self hlt

/-- Witness of C3: on the example module the arguments (10, 5, 8, 7, true)
are applicable, `Apply` produces a result, and in it the first instruction of
the entry block of function 8 is the `Function`-storage variable with result
id 10. -/
theorem Apply_inserts_variable_first_witness :
    exampleTransformation.IsApplicable exampleContext exampleFacts = some true ∧
    ∃ context1 fact_manager1,
      exampleTransformation.Apply exampleContext exampleFacts = some (context1, fact_manager1) ∧
      ∃ function_index function entry_block other_blocks first rest,
        fuzzerutil.FindFunction context1 8 = some function_index ∧
        context1.module.functions[function_index]? = some function ∧
        function.blocks = entry_block :: other_blocks ∧
        entry_block.insts = first :: rest ∧
        first.opcode = SpvOpVariable ∧
        first.type_id = some 5 ∧
        first.result_id = some 10 ∧
        first.in_operands =
          [ { type := spv_operand_type_t.SPV_OPERAND_TYPE_STORAGE_CLASS,
              words := [SpvStorageClassFunction] },
            { type := spv_operand_type_t.SPV_OPERAND_TYPE_ID, words := [7] } ] :=
  ⟨by decide,
    match h : exampleTransformation.Apply exampleContext exampleFacts with
    | some (context1, fact_manager1) =>
      ⟨context1, fact_manager1, rfl,
        (Apply_inserts_variable_first exampleTransformation exampleContext exampleFacts
          (by decide)).1 context1 fact_manager1 h⟩
    | none => absurd h (by decide)⟩

/-- C6: when `IsApplicable` is true, the freshness query on `fresh_id`
returns false on the module that `Apply` leaves; and `Apply` does produce
that module when the functions with id `function_id` have a block. -/
theorem IsFreshId_false_after_Apply (t : TransformationAddLocalVariable)
    (context : IRContext) (fact_manager : FactManager)
    (happ : t.IsApplicable context fact_manager = some true) :
    (∀ context1 fact_manager1,
      t.Apply context fact_manager = some (context1, fact_manager1) →
      fuzzerutil.IsFreshId context1 t.message_.fresh_id = false) ∧
    ((∀ function ∈ context.module.functions,
        function.result_id = some t.message_.function_id → function.blocks ≠ []) →
      (t.Apply context fact_manager).isSome = true) := by
  refine ⟨?_, Apply_isSome_of_IsApplicable t context fact_manager happ⟩
  intro context1 fact_manager1 hres
  rw [← Bool.not_eq_true, IsFreshId_eq_true_iff]
  intro hall
  exact hall t.newInstruction
    (newInstruction_mem_of_Apply t context context1 fact_manager fact_manager1 hres) rfl

/-- Witness of C6: on the example module id 10 is fresh before `Apply` with
arguments (10, 5, 8, 7, true) and no longer fresh in its result. -/
theorem IsFreshId_false_after_Apply_witness :
    fuzzerutil.IsFreshId exampleContext 10 = true ∧
    ∃ context1 fact_manager1,
      exampleTransformation.Apply exampleContext exampleFacts = some (context1, fact_manager1) ∧
      fuzzerutil.IsFreshId context1 10 = false :=
  ⟨by decide,
    match h : exampleTransformation.Apply exampleContext exampleFacts with
    | some (context1, fact_manager1) =>
      ⟨context1, fact_manager1, rfl,
        (IsFreshId_false_after_Apply exampleTransformation exampleContext exampleFacts
          (by decide)).1 context1 fact_manager1 h⟩
    | none => absurd h (by decide)⟩

/-! ## The identifier bound -/

/-- C7: for every `fresh_id`, in particular every 32-bit one, after `Apply`
the identifier bound is strictly greater than `fresh_id`: it is one past
`fresh_id` when the old bound was not above `fresh_id`, and the old bound
otherwise. -/
theorem id_bound_after_Apply (t : TransformationAddLocalVariable)
    (context context1 : IRContext) (fact_manager fact_manager1 : FactManager)
    (hres : t.Apply context fact_manager = some (context1, fact_manager1)) :
    t.message_.fresh_id < context1.module.id_bound ∧
    (context.module.id_bound ≤ t.message_.fresh_id →
      context1.module.id_bound = t.message_.fresh_id + 1) ∧
    (t.message_.fresh_id < context.module.id_bound →
      context1.module.id_bound = context.module.id_bound) := by
  obtain ⟨_, _, _, _, _, _, _, hbound, _⟩ :=
    Apply_eq_some t context context1 fact_manager fact_manager1 hres
  rw [hbound]
  refine ⟨?_, ?_, ?_⟩
  · exact lt_of_lt_of_le (Nat.lt_succ_self _) (le_max_right _ _)
  · intro hle
    exact max_eq_right (Nat.le_succ_of_le hle)
  · intro hlt
    exact max_eq_left hlt

/-- Witness of C7: on the example module, bound 10 and
`fresh_id = 10` give bound 11. -/
theorem id_bound_after_Apply_witness :
    exampleContext.module.id_bound = 10 ∧
    ∃ context1 fact_manager1,
      exampleTransformation.Apply exampleContext exampleFacts = some (context1, fact_manager1) ∧
      context1.module.id_bound = 11 :=
  ⟨rfl,
    match h : exampleTransformation.Apply exampleContext exampleFacts with
    | some (context1, fact_manager1) =>
      ⟨context1, fact_manager1, rfl,
        (id_bound_after_Apply exampleTransformation exampleContext context1 exampleFacts
          fact_manager1 h).2.1 (by decide)⟩
    | none => absurd h (by decide)⟩

/-- One `Apply` call does not lower the identifier bound. -/
theorem id_bound_le_of_Apply (t : TransformationAddLocalVariable)
    (context context1 : IRContext) (fact_manager fact_manager1 : FactManager)
    (hres : t.Apply context fact_manager = some (context1, fact_manager1)) :
    context.module.id_bound ≤ context1.module.id_bound := by
  obtain ⟨_, _, _, _, _, _, _, hbound, _⟩ :=
    Apply_eq_some t context context1 fact_manager fact_manager1 hres
  rw [hbound]
  exact le_max_left _ _

/-- C8: along every finite sequence of `Apply` calls on a module, the
identifier bound after each call is at least the bound before that call.  On
the example module the calls with fresh ids 10, 12, 11 leave the bounds 11,
13, 13. -/
theorem id_bound_never_decreases :
    (∀ (ts : List TransformationAddLocalVariable) (context : IRContext)
        (fact_manager : FactManager),
      List.Chain (fun before after => before ≤ after) context.module.id_bound
        ((ApplySequence ts context fact_manager).map (fun state => state.1.module.id_bound))) ∧
    (ApplySequence
        [TransformationAddLocalVariable.ofArguments 10 5 8 7 true,
         TransformationAddLocalVariable.ofArguments 12 5 8 7 false,
         TransformationAddLocalVariable.ofArguments 11 5 8 7 false]
        exampleContext exampleFacts).map (fun state => state.1.module.id_bound)
      = [11, 13, 13] := by
  refine ⟨?_, by decide⟩
  intro ts
  induction ts with
  | nil => intro context fact_manager; simp [ApplySequence]
  | cons t ts ih =>
    intro context fact_manager
    unfold ApplySequence
    split
    · simp
    · rename_i context1 fact_manager1 hres
      simp only [List.map_cons, List.chain_cons]
      exact ⟨id_bound_le_of_Apply t context context1 fact_manager fact_manager1 hres,
        ih context1 fact_manager1⟩

/-! ## The fact manager -/

/-- C9: after `Apply`, if `value_is_arbitrary` is set the fact manager holds
the fact that the value of variable `fresh_id` is arbitrary and still holds
every fact it held before; if the flag is not set the fact manager is the one
before. -/
theorem facts_after_Apply (t : TransformationAddLocalVariable)
    (context context1 : IRContext) (fact_manager fact_manager1 : FactManager)
    (hres : t.Apply context fact_manager = some (context1, fact_manager1)) :
    (t.message_.value_is_arbitrary = true →
      fact_manager1.VariableValueIsArbitrary t.message_.fresh_id = true ∧
      Fact.ValueOfVariableIsArbitrary t.message_.fresh_id ∈ fact_manager1.facts ∧
      ∀ fact ∈ fact_manager.facts, fact ∈ fact_manager1.facts) ∧
    (t.message_.value_is_arbitrary = false → fact_manager1 = fact_manager) := by
  obtain ⟨_, _, _, _, _, _, _, _, _, _, _, hfm⟩ :=
    Apply_eq_some t context context1 fact_manager fact_manager1 hres
  subst hfm
  constructor
  · intro hflag
    simp [hflag, FactManager.AddFactValueOfVariableIsArbitrary,
      FactManager.VariableValueIsArbitrary]
    intro fact hmem
    exact Or.inl hmem
  · intro hflag
    simp [hflag]

/-- Witness of C9: on the example module the arguments (10, 5, 8, 7, true)
leave a fact manager that marks id 10 as arbitrary and keeps the earlier
fact. -/
theorem facts_after_Apply_witness :
    ∃ context1 fact_manager1,
      exampleTransformation.Apply exampleContext exampleFacts = some (context1, fact_manager1) ∧
      fact_manager1.VariableValueIsArbitrary 10 = true ∧
      Fact.IdsAreSynonymous 7 7 ∈ fact_manager1.facts :=
  match h : exampleTransformation.Apply exampleContext exampleFacts with
  | some (context1, fact_manager1) =>
    ⟨context1, fact_manager1, rfl,
      ((facts_after_Apply exampleTransformation exampleContext context1 exampleFacts
        fact_manager1 h).1 rfl).1,
      ((facts_after_Apply exampleTransformation exampleContext context1 exampleFacts
        fact_manager1 h).1 rfl).2.2 _ (by decide)⟩
  | none => absurd h (by decide)

/-! ## Serialisation -/

/-- C10: `ToMessage` of the transformation built from five arguments is a
record of the add-local-variable kind whose five fields are those arguments,
and the transformation rebuilt from that payload has the same `ToMessage`;
more generally, rebuilding from any payload and calling `ToMessage` gives
back the record with that payload. -/
theorem ToMessage_round_trip (fresh_id type_id function_id initializer_id : Nat)
    (value_is_arbitrary : Bool) :
    (TransformationAddLocalVariable.ofArguments fresh_id type_id function_id initializer_id
        value_is_arbitrary).ToMessage
      = protobufs.Transformation.add_local_variable
          { fresh_id := fresh_id
            type_id := type_id
            function_id := function_id
            initializer_id := initializer_id
            value_is_arbitrary := value_is_arbitrary } ∧
    ((TransformationAddLocalVariable.ofArguments fresh_id type_id function_id initializer_id
        value_is_arbitrary).ToMessage.add_local_variable_payload.map
        (fun payload => (TransformationAddLocalVariable.ofMessage payload).ToMessage))
      = some (TransformationAddLocalVariable.ofArguments fresh_id type_id function_id
          initializer_id value_is_arbitrary).ToMessage ∧
    (∀ message : protobufs.TransformationAddLocalVariable,
      (TransformationAddLocalVariable.ofMessage message).ToMessage
        = protobufs.Transformation.add_local_variable message) :=
  ⟨rfl, rfl, fun _ => rfl⟩

/-! ## The frame of the application -/

/-- Overwriting the element at an index splits the list around that index. -/
theorem set_eq_append_cons {α : Type} (a b : α) :
    ∀ (l : List α) (i : Nat), l[i]? = some b →
      ∃ l1 l2, l = l1 ++ b :: l2 ∧ l.set i a = l1 ++ a :: l2 ∧ l1.length = i := by
  intro l
  induction l with
  | nil => intro i h; simp at h
  | cons x xs ih =>
    intro i h
    cases i with
    | zero =>
      simp only [List.getElem?_cons_zero, Option.some.injEq] at h
      subst h
      exact ⟨[], xs, rfl, rfl, rfl⟩
    | succ k =>
      simp only [List.getElem?_cons_succ] at h
      obtain ⟨l1, l2, h1, h2, h3⟩ := ih k h
      refine ⟨x :: l1, l2, ?_, ?_, ?_⟩
      · simp [h1]
      · simp [List.set, h2]
      · simp [h3]

/-- Overwriting an element with one on which the test gives the same answer
does not change what `findIdx?` finds. -/
theorem findIdx?_set_of_eq {α : Type} (p : α → Bool) (a b : α) (hab : p a = p b) :
    ∀ (l : List α) (i : Nat), l[i]? = some b → (l.set i a).findIdx? p = l.findIdx? p := by
  intro l
  induction l with
  | nil => intro i h; simp at h
  | cons x xs ih =>
    intro i h
    cases i with
    | zero =>
      simp only [List.getElem?_cons_zero, Option.some.injEq] at h
      subst h
      simp [List.set, List.findIdx?_cons, hab]
    | succ k =>
      simp only [List.getElem?_cons_succ] at h
      simp only [List.set, List.findIdx?_cons, List.findIdx?_succ, ih k h]

/-- The instructions of the module `Apply` leaves are those of the module
before with the new instruction inserted at one place. -/
theorem instructions_of_Apply (t : TransformationAddLocalVariable)
    (context context1 : IRContext) (fact_manager fact_manager1 : FactManager)
    (h : t.Apply context fact_manager = some (context1, fact_manager1)) :
    ∃ before after,
      context.module.instructions = before ++ after ∧
      context1.module.instructions = before ++ t.newInstruction :: after := by
  obtain ⟨i, function, entry_block, other_blocks, _, hget, hblocks, _, htv, hfuns, _, _⟩ :=
    Apply_eq_some t context context1 fact_manager fact_manager1 h
  obtain ⟨fs1, fs2, hsplit, hset, _⟩ :=
    set_eq_append_cons
      ({ function with
          blocks :=
            { entry_block with insts := t.newInstruction :: entry_block.insts }
              :: other_blocks } : Function)
      function context.module.functions i hget
  refine ⟨context.module.types_values ++ fs1.flatMap Function.instructions ++
      (function.def_inst :: (function.params ++ [entry_block.label])),
    entry_block.insts ++ other_blocks.flatMap BasicBlock.instructions ++
      fs2.flatMap Function.instructions, ?_, ?_⟩
  · unfold Module.instructions
    rw [hsplit]
    simp [Function.instructions, BasicBlock.instructions, hblocks]
  · unfold Module.instructions
    rw [hfuns, hset, htv]
    simp [Function.instructions, BasicBlock.instructions]

/-- The definition lookup of an identifier other than `fresh_id` is the same
before and after `Apply`. -/
theorem GetDef_of_Apply (t : TransformationAddLocalVariable)
    (context context1 : IRContext) (fact_manager fact_manager1 : FactManager)
    (h : t.Apply context fact_manager = some (context1, fact_manager1))
    (id : Nat) (hid : id ≠ t.message_.fresh_id) :
    context1.GetDef id = context.GetDef id := by
  obtain ⟨before, after, h0, h1⟩ :=
    instructions_of_Apply t context context1 fact_manager fact_manager1 h
  unfold IRContext.GetDef
  rw [h0, h1]
  have hnew : (t.newInstruction.result_id == some id) = false := by
    simp only [TransformationAddLocalVariable.newInstruction, beq_eq_false_iff_ne, ne_eq,
      Option.some.injEq]
    exact fun heq => hid heq.symm
  simp [List.find?_append, List.find?_cons, hnew]

/-- The function lookup is the same before and after `Apply`. -/
theorem FindFunction_of_Apply (t : TransformationAddLocalVariable)
    (context context1 : IRContext) (fact_manager fact_manager1 : FactManager)
    (h : t.Apply context fact_manager = some (context1, fact_manager1))
    (function_id : Nat) :
    fuzzerutil.FindFunction context1 function_id = fuzzerutil.FindFunction context function_id := by
  obtain ⟨i, function, entry_block, other_blocks, _, hget, _, _, _, hfuns, _, _⟩ :=
    Apply_eq_some t context context1 fact_manager fact_manager1 h
  unfold fuzzerutil.FindFunction
  rw [hfuns]
  exact findIdx?_set_of_eq
    (fun function : Function => function.result_id == some function_id)
    { function with
      blocks :=
        { entry_block with insts := t.newInstruction :: entry_block.insts } :: other_blocks }
    function rfl _ _ hget

/-- A true applicability test has found `fresh_id` fresh and has found the
definitions of `type_id` and `initializer_id`. -/
theorem lookups_of_IsApplicable (t : TransformationAddLocalVariable)
    (context : IRContext) (fact_manager : FactManager)
    (h : t.IsApplicable context fact_manager = some true) :
    fuzzerutil.IsFreshId context t.message_.fresh_id = true ∧
    (context.GetDef t.message_.type_id).isSome = true ∧
    (context.GetDef t.message_.initializer_id).isSome = true := by
  unfold TransformationAddLocalVariable.IsApplicable at h
  repeat' split at h
  all_goals simp_all

/-- The freshness of an identifier other than `fresh_id` is the same before
and after `Apply`. -/
theorem IsFreshId_of_Apply (t : TransformationAddLocalVariable)
    (context context1 : IRContext) (fact_manager fact_manager1 : FactManager)
    (h : t.Apply context fact_manager = some (context1, fact_manager1))
    (id : Nat) (hid : id ≠ t.message_.fresh_id) :
    fuzzerutil.IsFreshId context1 id = fuzzerutil.IsFreshId context id := by
  unfold fuzzerutil.IsFreshId
  rw [GetDef_of_Apply t context context1 fact_manager fact_manager1 h id hid]

/-- An identifier that the module defines is not a fresh one. -/
theorem ne_of_GetDef_isSome_of_IsFreshId (context : IRContext) (id fresh_id : Nat)
    (hdef : (context.GetDef id).isSome = true)
    (hfresh : fuzzerutil.IsFreshId context fresh_id = true) : id ≠ fresh_id := by
  intro heq
  subst heq
  unfold fuzzerutil.IsFreshId at hfresh
  cases hget : context.GetDef id with
  | none => simp [hget] at hdef
  | some inst => simp [hget] at hfresh

/-! ## Safety of the applicability test -/

/-- C12: in a module in which each pointer-type instruction carries its
storage-class and pointee-type operands, `IsApplicable` evaluates to a
boolean for every argument record; in any module, the only lookup that can
fail is an operand read on the instruction found for `type_id` and confirmed
to be a pointer type.  On the example module, undefined identifiers, a
non-pointer `type_id` and a non-constant `initializer_id` all give false. -/
theorem IsApplicable_isSome_of_pointer_operands :
    (∀ (t : TransformationAddLocalVariable) (context : IRContext) (fact_manager : FactManager),
      (∀ inst ∈ context.module.instructions, inst.opcode = SpvOpTypePointer →
          (inst.GetSingleWordInOperand 0).isSome = true ∧
          (inst.GetSingleWordInOperand 1).isSome = true) →
        (t.IsApplicable context fact_manager).isSome = true) ∧
    (∀ (t : TransformationAddLocalVariable) (context : IRContext) (fact_manager : FactManager),
      t.IsApplicable context fact_manager = none →
        ∃ type_instruction,
          context.GetDef t.message_.type_id = some type_instruction ∧
          type_instruction.opcode = SpvOpTypePointer ∧
          (type_instruction.GetSingleWordInOperand 0 = none ∨
            ((context.GetDef t.message_.initializer_id).isSome = true ∧
              type_instruction.GetSingleWordInOperand 1 = none))) ∧
    (TransformationAddLocalVariable.ofArguments 10 20 21 22 true).IsApplicable
        exampleContext exampleFacts = some false ∧
    (TransformationAddLocalVariable.ofArguments 10 6 8 7 true).IsApplicable
        exampleContext exampleFacts = some false ∧
    (TransformationAddLocalVariable.ofArguments 10 5 8 6 true).IsApplicable
        exampleContext exampleFacts = some false := by
  have hnone : ∀ (t : TransformationAddLocalVariable) (context : IRContext)
      (fact_manager : FactManager),
      t.IsApplicable context fact_manager = none →
        ∃ type_instruction,
          context.GetDef t.message_.type_id = some type_instruction ∧
          type_instruction.opcode = SpvOpTypePointer ∧
          (type_instruction.GetSingleWordInOperand 0 = none ∨
            ((context.GetDef t.message_.initializer_id).isSome = true ∧
              type_instruction.GetSingleWordInOperand 1 = none)) := by
    intro t context fact_manager h
    unfold TransformationAddLocalVariable.IsApplicable at h
    split at h
    · simp at h
    · split at h
      · simp at h
      · rename_i type_instruction hty
        split at h
        · simp at h
        · rename_i hop
          refine ⟨type_instruction, hty, by simpa using hop, ?_⟩
          split at h
          · rename_i hsc
            exact Or.inl hsc
          · split at h
            · simp at h
            · split at h
              · simp at h
              · rename_i initializer_instruction hini
                split at h
                · simp at h
                · split at h
                  · rename_i hpointee
                    exact Or.inr ⟨by simp [hini], hpointee⟩
                  · split at h <;> simp at h
  refine ⟨?_, hnone, by decide, by decide, by decide⟩
  intro t context fact_manager hptr
  cases hres : t.IsApplicable context fact_manager with
  | some result => rfl
  | none =>
    obtain ⟨type_instruction, hty, hop, hread⟩ := hnone t context fact_manager hres
    have hmem := (GetDef_some_mem context _ _ hty).1
    obtain ⟨h0, h1⟩ := hptr type_instruction hmem hop
    rcases hread with hread | ⟨_, hread⟩
    · simp [hread] at h0
    · simp [hread] at h1

/-! ## Invalidation of the analyses -/

/-- C13: after `Apply` no analysis is marked valid. -/
theorem no_valid_analysis_after_Apply (t : TransformationAddLocalVariable)
    (context context1 : IRContext) (fact_manager fact_manager1 : FactManager)
    (hres : t.Apply context fact_manager = some (context1, fact_manager1)) :
    context1.valid_analyses = [] ∧ ∀ analysis : Analysis, analysis ∉ context1.valid_analyses := by
  obtain ⟨_, _, _, _, _, _, _, _, _, _, hvalid, _⟩ :=
    Apply_eq_some t context context1 fact_manager fact_manager1 hres
  rw [hvalid]
  exact ⟨rfl, fun analysis => List.not_mem_nil analysis⟩

/-- Witness of C13: the example context has a valid analysis before `Apply`
with arguments (10, 5, 8, 7, true) and none after. -/
theorem no_valid_analysis_after_Apply_witness :
    exampleContext.valid_analyses = [1] ∧
    ∃ context1 fact_manager1,
      exampleTransformation.Apply exampleContext exampleFacts = some (context1, fact_manager1) ∧
      context1.valid_analyses = [] :=
  ⟨rfl,
    match h : exampleTransformation.Apply exampleContext exampleFacts with
    | some (context1, fact_manager1) =>
      ⟨context1, fact_manager1, rfl,
        (no_valid_analysis_after_Apply exampleTransformation exampleContext context1
          exampleFacts fact_manager1 h).1⟩
    | none => absurd h (by decide)⟩

/-! ## Independence of the applicability test -/

/-- C16: two argument records that agree on `fresh_id`, `type_id`,
`function_id` and `initializer_id` get the same result from `IsApplicable`
on a module, whatever the two fact managers and the two flags are. -/
theorem IsApplicable_independent_of_facts_and_flag (t1 t2 : TransformationAddLocalVariable)
    (context : IRContext) (fact_manager1 fact_manager2 : FactManager)
    (hfresh : t1.message_.fresh_id = t2.message_.fresh_id)
    (htype : t1.message_.type_id = t2.message_.type_id)
    (hfunction : t1.message_.function_id = t2.message_.function_id)
    (hinitializer : t1.message_.initializer_id = t2.message_.initializer_id) :
    t1.IsApplicable context fact_manager1 = t2.IsApplicable context fact_manager2 := by
  unfold TransformationAddLocalVariable.IsApplicable
  rw [hfresh, htype, hfunction, hinitializer]

/-- Witness of C16: on the example module the arguments (10, 5, 8, 7) are
applicable with the flag set and the example facts, and with the flag unset
and no fact. -/
theorem IsApplicable_independent_of_facts_and_flag_witness :
    (TransformationAddLocalVariable.ofArguments 10 5 8 7 true).IsApplicable
        exampleContext exampleFacts
      = (TransformationAddLocalVariable.ofArguments 10 5 8 7 false).IsApplicable
        exampleContext { facts := [] } ∧
    (TransformationAddLocalVariable.ofArguments 10 5 8 7 false).IsApplicable
        exampleContext { facts := [] } = some true :=
  ⟨IsApplicable_independent_of_facts_and_flag
      (TransformationAddLocalVariable.ofArguments 10 5 8 7 true)
      (TransformationAddLocalVariable.ofArguments 10 5 8 7 false)
      exampleContext exampleFacts { facts := [] } rfl rfl rfl rfl,
    by decide⟩

/-! ## Composition of two additions -/

/-- C15: when two transformations with different `fresh_id` are both
applicable on a module, the second is still applicable on the module that
`Apply` of the first leaves; and `Apply` of the first does produce that
module when the functions with its `function_id` have a block. -/
theorem IsApplicable_after_Apply_of_other (t1 t2 : TransformationAddLocalVariable)
    (context : IRContext) (fact_manager : FactManager)
    (hne : t1.message_.fresh_id ≠ t2.message_.fresh_id)
    (happ1 : t1.IsApplicable context fact_manager = some true)
    (happ2 : t2.IsApplicable context fact_manager = some true) :
    (∀ context1 fact_manager1,
      t1.Apply context fact_manager = some (context1, fact_manager1) →
      t2.IsApplicable context1 fact_manager1 = some true) ∧
    ((∀ function ∈ context.module.functions,
        function.result_id = some t1.message_.function_id → function.blocks ≠ []) →
      (t1.Apply context fact_manager).isSome = true) := by
  refine ⟨?_, Apply_isSome_of_IsApplicable t1 context fact_manager happ1⟩
  intro context1 fact_manager1 hres
  obtain ⟨hfresh1, _, _⟩ := lookups_of_IsApplicable t1 context fact_manager happ1
  obtain ⟨_, htype2, hinitializer2⟩ := lookups_of_IsApplicable t2 context fact_manager happ2
  have hty := ne_of_GetDef_isSome_of_IsFreshId context _ _ htype2 hfresh1
  have hini := ne_of_GetDef_isSome_of_IsFreshId context _ _ hinitializer2 hfresh1
  unfold TransformationAddLocalVariable.IsApplicable
  unfold TransformationAddLocalVariable.IsApplicable at happ2
  rw [IsFreshId_of_Apply t1 context context1 fact_manager fact_manager1 hres _ (Ne.symm hne),
    GetDef_of_Apply t1 context context1 fact_manager fact_manager1 hres _ hty,
    GetDef_of_Apply t1 context context1 fact_manager fact_manager1 hres _ hini,
    FindFunction_of_Apply t1 context context1 fact_manager fact_manager1 hres]
  exact happ2

/-- Witness of C15: on the example module the arguments (10, 5, 8, 7, true)
and (11, 5, 8, 7, false) are both applicable, and the second still is after
`Apply` of the first. -/
theorem IsApplicable_after_Apply_of_other_witness :
    ∃ context1 fact_manager1,
      exampleTransformation.Apply exampleContext exampleFacts = some (context1, fact_manager1) ∧
      (TransformationAddLocalVariable.ofArguments 11 5 8 7 false).IsApplicable
        context1 fact_manager1 = some true :=
  match h : exampleTransformation.Apply exampleContext exampleFacts with
  | some (context1, fact_manager1) =>
    ⟨context1, fact_manager1, rfl,
      (IsApplicable_after_Apply_of_other exampleTransformation
        (TransformationAddLocalVariable.ofArguments 11 5 8 7 false) exampleContext exampleFacts
        (by decide) (by decide) (by decide)).1 context1 fact_manager1 h⟩
  | none => absurd h (by decide)

/-! ## What the application leaves unchanged -/

/-- C14: when `IsApplicable` is true, the module that `Apply` leaves differs
from the module before by exactly one instruction: the types, constants and
global declarations are unchanged; every function other than the one found
for `function_id` is unchanged; that function keeps its defining instruction,
its parameters and its blocks other than the entry block; the entry block
keeps its label and holds the new instruction followed by its previous
instructions in their previous order.  `Apply` does produce that module when
the functions with id `function_id` have a block. -/
theorem Apply_changes_only_entry_block (t : TransformationAddLocalVariable)
    (context : IRContext) (fact_manager : FactManager)
    (happ : t.IsApplicable context fact_manager = some true) :
    (∀ context1 fact_manager1,
      t.Apply context fact_manager = some (context1, fact_manager1) →
      ∃ function_index function entry_block other_blocks function1 entry_block1,
        fuzzerutil.FindFunction context t.message_.function_id = some function_index ∧
        context.module.functions[function_index]? = some function ∧
        function.blocks = entry_block :: other_blocks ∧
        context1.module.types_values = context.module.types_values ∧
        context1.module.functions.length = context.module.functions.length ∧
        (∀ other_index, other_index ≠ function_index →
          context1.module.functions[other_index]? = context.module.functions[other_index]?) ∧
        context1.module.functions[function_index]? = some function1 ∧
        function1.def_inst = function.def_inst ∧
        function1.params = function.params ∧
        function1.blocks = entry_block1 :: other_blocks ∧
        entry_block1.label = entry_block.label ∧
        entry_block1.insts = t.newInstruction :: entry_block.insts ∧
        context1.module.instructions.length = context.module.instructions.length + 1 ∧
        ∃ before after,
          context.module.instructions = before ++ after ∧
          context1.module.instructions = before ++ t.newInstruction :: after) ∧
    ((∀ function ∈ context.module.functions,
        function.result_id = some t.message_.function_id → function.blocks ≠ []) →
      (t.Apply context fact_manager).isSome = true) := by
  refine ⟨?_, Apply_isSome_of_IsApplicable t context fact_manager happ⟩
  intro context1 fact_manager1 hres
  obtain ⟨i, function, entry_block, other_blocks, hfind, hget, hblocks, _, htv, hfuns, _, _⟩ :=
    Apply_eq_some t context context1 fact_manager fact_manager1 hres
  obtain ⟨before, after, h0, h1⟩ :=
    instructions_of_Apply t context context1 fact_manager fact_manager1 hres
  have hlt : i < context.module.functions.length := by
    rcases List.getElem?_eq_some.mp hget with ⟨hlt, _⟩
    exact hlt
  refine ⟨i, function, entry_block, other_blocks,
    { function with
      blocks :=
        { entry_block with insts := t.newInstruction :: entry_block.insts } :: other_blocks },
    { entry_block with insts := t.newInstruction :: entry_block.insts },
    hfind, hget, hblocks, htv, ?_, ?_, ?_, rfl, rfl, rfl, rfl, rfl, ?_, before, after, h0, h1⟩
  · rw [hfuns, List.length_set]
  · intro j hj
    rw [hfuns]
    exact List.getElem?_set_ne (Ne.symm hj)
  · rw [hfuns]
    exact List.getElem?_set_self hlt
  · rw [h0, h1]
    simp only [List.length_append, List.length_cons]
    omega

/-- Witness of C14: on the example module `Apply` with arguments
(10, 5, 8, 7, true) leaves the seven type and constant declarations
unchanged and makes the entry block of function 8 the new instruction
followed by the previous `OpReturn`. -/
theorem Apply_changes_only_entry_block_witness :
    ∃ context1 fact_manager1,
      exampleTransformation.Apply exampleContext exampleFacts = some (context1, fact_manager1) ∧
      context1.module.types_values = exampleModule.types_values ∧
      context1.module.functions.map Function.blocks
        = [[ { label := exampleInst 248 none (some 1) [],
               insts := [exampleTransformation.newInstruction, exampleInst 253 none none []] } ]] ∧
      context1.module.instructions.length = exampleModule.instructions.length + 1 :=
  match h : exampleTransformation.Apply exampleContext exampleFacts with
  | some (context1, fact_manager1) =>
    have hframe := (Apply_changes_only_entry_block exampleTransformation exampleContext
      exampleFacts (by decide)).1 context1 fact_manager1 h
    have hvalue : exampleTransformation.Apply exampleContext exampleFacts
        = some (context1, fact_manager1) := h
    ⟨context1, fact_manager1, rfl,
      by
        obtain ⟨_, _, _, _, _, _, _, _, _, htv, _⟩ := hframe
        exact htv,
      by
        have hc : context1 = ((exampleTransformation.Apply exampleContext exampleFacts).map
            Prod.fst).getD exampleContext := by rw [hvalue]; rfl
        rw [hc]
        decide,
      by
        obtain ⟨_, _, _, _, _, _, _, _, _, _, _, _, _, _, _, _, _, _, hlen, _⟩ := hframe
        exact hlen⟩
  | none => absurd h (by decide)

/-! ## Preservation of well-formedness -/

end fuzz
end spvtools
